import Mathlib

/-!
Thread control on Darwin (`proc/threads_darwin.go`).

A shallow embedding of `Thread.resume`, `Thread.singleStep`, `Thread.blocked`,
`Thread.writeMemory` and `Thread.readMemory`.

Every foreign call (the cgo helpers, `PtraceThupdate`, `trapWait`, `PC`,
`PCToFunc`) is answered by a `Kernel`: a record of response functions that see the
whole history of calls issued so far, so that a theorem quantified over every
`Kernel` holds for every behaviour of the operating system.  Each call is appended
to a chronological log, which is what the theorems about "which calls are issued"
talk about.  The `fmt.Println` diagnostics of the source write to standard output
only and are left out.
-/

namespace proc

/-- A byte of debuggee memory (Go `byte`). -/
abbrev Byte := Fin 256

/-- The C type `kern_return_t` (a C `int`). -/
abbrev KernReturn := Int

/-- The Mach status `KERN_SUCCESS` of `<mach/kern_return.h>`. -/
def KERN_SUCCESS : KernReturn := 0

/-- The C struct `mach_msg_header_t` of `<mach/message.h>`; Go compares two values
of it field by field. -/
structure MachMsgHeader where
  msgh_bits : Nat
  msgh_size : Nat
  msgh_remote_port : Nat
  msgh_local_port : Nat
  msgh_voucher_port : Nat
  msgh_id : Int
deriving DecidableEq, Repr

/-- The zero value `var emptyhdr C.mach_msg_header_t` declared in `resume`. -/
def emptyhdr : MachMsgHeader := ⟨0, 0, 0, 0, 0, 0⟩

/-- Go `error` values that are not nil.  `ErrContinueThread` is the package-level
value; `errorf` is a fresh `fmt.Errorf` value with the given text; `foreign` is an
error made by a collaborator (`PtraceThupdate`, `trapWait`, `PC`). -/
inductive GoError where
  | ErrContinueThread
  | errorf (msg : String)
  | foreign (code : Nat)
deriving DecidableEq, Repr

/-- The struct `OSSpecificDetails` holds information specific to the OSX/Darwin
operating system / kernel. -/
structure OSSpecificDetails where
  threadAct : Nat
  registers : List Nat
  hdr : MachMsgHeader
deriving DecidableEq, Repr

/-- Modelled from the spec: the `Process` type is declared outside
`threads_darwin.go`; these are the fields the file reads (`t.dbp.Pid` and
`t.dbp.os.task`, the process-wide memory capability). -/
structure Process where
  Pid : Int
  task : Nat
deriving DecidableEq, Repr

/-- Modelled from the spec: the `Thread` type is declared outside
`threads_darwin.go`; these are the fields the file reads and writes (`ID`, `dbp`,
`os` and the advisory `running` flag). -/
structure Thread where
  ID : Int
  dbp : Process
  os : OSSpecificDetails
  running : Bool
deriving DecidableEq, Repr

/-- The symbol-table entry returned by `PCToFunc`; only `Name` is read. -/
structure Func where
  Name : String
deriving DecidableEq, Repr

/-- One foreign call, with the arguments the source passes. -/
inductive Call where
  | set_single_step_flag (act : Nat)
  | clear_trap_flag (act : Nat)
  | PtraceThupdate (pid : Int) (act : Nat) (sig : Int)
  | mach_send_reply (hdr : MachMsgHeader)
  | resume_thread (act : Nat)
  | trapWait (pid : Int)
  | write_memory (task : Nat) (vmAddr : Nat) (data : List Byte) (length : Nat)
  | read_memory (task : Nat) (vmAddr : Nat) (length : Nat)
deriving DecidableEq, Repr

/-- The behaviour of everything outside the file.  Each response function receives
the calls issued before it (oldest first) and the call's arguments.  `trapWait` is a
Go method of the process and may update the thread, so it also returns the thread's
new state.  `read_memory` returns its status and the bytes it stored through the
buffer pointer. -/
structure Kernel where
  set_single_step_flag : List Call → Nat → KernReturn
  clear_trap_flag : List Call → Nat → KernReturn
  PtraceThupdate : List Call → Int → Nat → Int → Option GoError
  mach_send_reply : List Call → MachMsgHeader → KernReturn
  resume_thread : List Call → Nat → KernReturn
  trapWait : List Call → Thread → Int → Option GoError × Thread
  write_memory : List Call → Nat → Nat → List Byte → Nat → Int
  read_memory : List Call → Nat → Nat → Nat → Int × List Byte
  PC : Thread → Except GoError Nat
  PCToFunc : Nat → Option Func

/-- The thread together with the log of foreign calls issued so far. -/
structure State where
  t : Thread
  log : List Call
deriving DecidableEq, Repr

/-- Lines 80-87 of `resume`: the `resume_thread` call and the test of its status. -/
def resumeThread (k : Kernel) (s : State) : Option GoError × State :=
  let kret := k.resume_thread s.log s.t.os.threadAct
  let s1 : State := { s with log := s.log ++ [Call.resume_thread s.t.os.threadAct] }
  if kret ≠ KERN_SUCCESS then
    (some GoError.ErrContinueThread, s1)
  else
    (none, s1)

/-- The method `func (t *Thread) resume() error`. -/
def resume (k : Kernel) (s : State) : Option GoError × State :=
  let s0 : State := { s with t := { s.t with running := true } }
  if s0.t.os.hdr ≠ emptyhdr then
    let err := k.PtraceThupdate s0.log s0.t.dbp.Pid s0.t.os.threadAct 0
    let s1 : State :=
      { s0 with log := s0.log ++ [Call.PtraceThupdate s0.t.dbp.Pid s0.t.os.threadAct 0] }
    match err with
    | none => (none, s1)
    | some _ =>
      let kret := k.mach_send_reply s1.log s1.t.os.hdr
      let s2 : State := { s1 with log := s1.log ++ [Call.mach_send_reply s1.t.os.hdr] }
      if kret ≠ KERN_SUCCESS then
        (some GoError.ErrContinueThread, s2)
      else
        resumeThread k s2
  else
    resumeThread k s0

/-- The method `func (t *Thread) singleStep() error`. -/
def singleStep (k : Kernel) (s : State) : Option GoError × State :=
  let kret := k.set_single_step_flag s.log s.t.os.threadAct
  let s1 : State := { s with log := s.log ++ [Call.set_single_step_flag s.t.os.threadAct] }
  if kret ≠ KERN_SUCCESS then
    (some (GoError.errorf "could not single step"), s1)
  else
    match resume k s1 with
    | (some err, s2) => (some err, s2)
    | (none, s2) =>
      let w := k.trapWait s2.log s2.t s2.t.dbp.Pid
      let s3 : State := { t := w.2, log := s2.log ++ [Call.trapWait s2.t.dbp.Pid] }
      match w.1 with
      | some err => (some err, s3)
      | none =>
        let kret2 := k.clear_trap_flag s3.log s3.t.os.threadAct
        let s4 : State := { s3 with log := s3.log ++ [Call.clear_trap_flag s3.t.os.threadAct] }
        if kret2 ≠ KERN_SUCCESS then
          (some (GoError.errorf "could not clear CPU trap flag"), s4)
        else
          (none, s4)

/-- The method `func (t *Thread) blocked() bool`. -/
def blocked (k : Kernel) (t : Thread) : Bool :=
  match k.PC t with
  | Except.error _ => false
  | Except.ok pc =>
    match k.PCToFunc pc with
    | none => false
    | some fn =>
      if fn.Name = "runtime.kevent" ∨ fn.Name = "runtime.mach_semaphore_wait"
          ∨ fn.Name = "runtime.usleep" then
        true
      else
        false

/-- The method `func (t *Thread) writeMemory(addr uintptr, data []byte) (int, error)`.
`vmAddr` is the address converted to the 64-bit `mach_vm_address_t`, and `length`
is `len(data)` converted to `mach_msg_type_number_t`, an unsigned 32-bit integer
(`natural_t`): the conversion keeps the low 32 bits. -/
def writeMemory (k : Kernel) (s : State) (addr : Nat) (data : List Byte) :
    (Int × Option GoError) × State :=
  if data.length = 0 then
    ((0, none), s)
  else
    let vmAddr := addr % 2 ^ 64
    let length := data.length % 2 ^ 32
    let ret := k.write_memory s.log s.t.dbp.task vmAddr data length
    let s1 : State :=
      { s with log := s.log ++ [Call.write_memory s.t.dbp.task vmAddr data length] }
    if ret < 0 then
      ((0, some (GoError.errorf "could not write memory")), s1)
    else
      (((data.length : Int), none), s1)

/-- The method `func (t *Thread) readMemory(addr uintptr, size int) ([]byte, error)`.
The result is `none` when `make([]byte, size)` panics on a negative size.  A nil
slice is the empty list.  `buf` starts zeroed; the callee stores at most `length`
bytes at its start. -/
def readMemory (k : Kernel) (s : State) (addr : Nat) (size : Int) :
    Option ((List Byte × Option GoError) × State) :=
  if size = 0 then
    some (([], none), s)
  else if size < 0 then
    none
  else
    let buf : List Byte := List.replicate size.toNat 0
    let vmAddr := addr % 2 ^ 64
    let length := size.toNat % 2 ^ 32
    let r := k.read_memory s.log s.t.dbp.task vmAddr length
    let s1 : State := { s with log := s.log ++ [Call.read_memory s.t.dbp.task vmAddr length] }
    if r.1 < 0 then
      some (([], some (GoError.errorf "could not read memory")), s1)
    else
      let stored := r.2.take length
      some ((stored ++ buf.drop stored.length, none), s1)

/-- The calls appended to the log `before` to obtain the log `after`. -/
def callsSince (before after : List Call) : List Call :=
  after.drop before.length

/-- Is the call the trace-continue call. -/
def isTraceContinue : Call → Bool
  | Call.PtraceThupdate _ _ _ => true
  | _ => false

/-- Is the call the reply-send call. -/
def isReplySend : Call → Bool
  | Call.mach_send_reply _ => true
  | _ => false

/-- Is the call the Mach resume call. -/
def isMachResume : Call → Bool
  | Call.resume_thread _ => true
  | _ => false

/-- A byte-addressed memory: one byte for each task and address. -/
abbrev Memory := Nat → Nat → Byte

/-- The memory after `bs` is stored in task `task` from address `a` on. -/
def Memory.store (m : Memory) (task a : Nat) (bs : List Byte) : Memory :=
  fun tk x => if tk = task ∧ a ≤ x ∧ x < a + bs.length then bs.getD (x - a) 0 else m tk x

/-- The `n` bytes of task `task` from address `a` on. -/
def Memory.load (m : Memory) (task a n : Nat) : List Byte :=
  (List.range n).map (fun i => m task (a + i))

/-- The memory a faithful kernel holds after the calls of a log: every
`write_memory` call stored the first `length` bytes of its buffer. -/
def memoryAfter (init : Memory) : List Call → Memory
  | [] => init
  | Call.write_memory task a data length :: rest =>
      memoryAfter (init.store task a (data.take length)) rest
  | _ :: rest => memoryAfter init rest

/-- A kernel whose `write_memory` and `read_memory` always succeed on a faithful
byte-addressed memory that starts as `init`; every other response is that of `base`. -/
def faithfulKernel (init : Memory) (base : Kernel) : Kernel :=
  { base with
    write_memory := fun _ _ _ _ _ => 0
    read_memory := fun log task a n => (0, (memoryAfter init log).load task a n) }

/-- A kernel in which every call succeeds, no function is found, and memory reads
store nothing. -/
def idleKernel : Kernel where
  set_single_step_flag := fun _ _ => KERN_SUCCESS
  clear_trap_flag := fun _ _ => KERN_SUCCESS
  PtraceThupdate := fun _ _ _ _ => none
  mach_send_reply := fun _ _ => KERN_SUCCESS
  resume_thread := fun _ _ => KERN_SUCCESS
  trapWait := fun _ t _ => (none, t)
  write_memory := fun _ _ _ _ _ => 0
  read_memory := fun _ _ _ _ => (0, [])
  PC := fun _ => Except.ok 0
  PCToFunc := fun _ => none

/-- A halted thread with no pending exception reply. -/
def haltedThread : Thread :=
  { ID := 1, dbp := { Pid := 100, task := 7 },
    os := { threadAct := 3, registers := [], hdr := emptyhdr }, running := false }

/-- A halted thread with a pending exception reply. -/
def exceptionThread : Thread :=
  { haltedThread with
    os := { threadAct := 3, registers := [], hdr := { emptyhdr with msgh_id := 1 } } }

/-- A kernel whose `resume_thread` fails with status 1; everything else succeeds. -/
def resumeFailsKernel : Kernel :=
  { idleKernel with resume_thread := fun _ _ => 1 }

/-- A kernel whose trace-continue call and reply-send both fail. -/
def traceAndReplyFailKernel : Kernel :=
  { idleKernel with
    PtraceThupdate := fun _ _ _ _ => some (GoError.foreign 3)
    mach_send_reply := fun _ _ => 5 }

/-- A kernel whose trace-continue call fails, whose reply-send succeeds and whose
`resume_thread` fails. -/
def replyOkResumeFailsKernel : Kernel :=
  { idleKernel with
    PtraceThupdate := fun _ _ _ _ => some (GoError.foreign 3)
    resume_thread := fun _ _ => 5 }

/-- The four steps of `singleStep`. -/
inductive Step where
  | setTrapFlag
  | resume
  | trapWait
  | clearTrapFlag
deriving DecidableEq, Repr

/-- The step of `singleStep` a foreign call belongs to: the three calls that
`resume` can issue belong to the step `resume`. -/
def stepOf : Call → Option Step
  | Call.set_single_step_flag _ => some Step.setTrapFlag
  | Call.PtraceThupdate _ _ _ => some Step.resume
  | Call.mach_send_reply _ => some Step.resume
  | Call.resume_thread _ => some Step.resume
  | Call.trapWait _ => some Step.trapWait
  | Call.clear_trap_flag _ => some Step.clearTrapFlag
  | Call.write_memory _ _ _ _ => none
  | Call.read_memory _ _ _ => none

/-- The sequence of steps seen in a list of calls: consecutive calls of one step
count once. -/
def stepsOf (cs : List Call) : List Step :=
  (cs.filterMap stepOf).destutter (· ≠ ·)

/-- A kernel whose `trapWait` fails. -/
def waitFailsKernel : Kernel :=
  { idleKernel with trapWait := fun _ t _ => (some (GoError.foreign 9), t) }

/-- A kernel whose memory calls return the positive status 1. -/
def positiveStatusKernel : Kernel :=
  { idleKernel with
    write_memory := fun _ _ _ _ _ => 1
    read_memory := fun _ _ _ _ => (1, []) }

/-- A kernel that resolves every program counter to `runtime.usleep`. -/
def usleepKernel : Kernel :=
  { idleKernel with PCToFunc := fun _ => some ⟨"runtime.usleep"⟩ }

/-! ## `resume` -/

/-- The thread after `resume` is the thread before it with `running` set: no other
field is written. -/
theorem resume_thread_eq (k : Kernel) (s : State) :
    (resume k s).2.t = { s.t with running := true } := by
  unfold resume resumeThread
  simp only []
  split_ifs <;> try rfl
  all_goals (split <;> try rfl)

/-- C1 (as stated, refuted): a halted thread with `running = false` and no pending
reply, whose Mach resume call fails: `resume` returns `ErrContinueThread` and leaves
`running = true`. -/
theorem resume_failure_leaves_running_true :
    haltedThread.running = false ∧
    (resume resumeFailsKernel ⟨haltedThread, []⟩).1 = some GoError.ErrContinueThread ∧
    (resume resumeFailsKernel ⟨haltedThread, []⟩).2.t.running = true := by
  decide

/-- C1 (amended): for every thread and every behaviour of the kernel calls, the
`running` flag is true after `resume` returns, with or without an error. -/
theorem resume_sets_running (k : Kernel) (s : State) :
    (resume k s).2.t.running = true := by
  rw [resume_thread_eq]

/-- The log after `resume` extends the log before it. -/
theorem resume_log_eq (k : Kernel) (s : State) :
    (resume k s).2.log = s.log ++ callsSince s.log (resume k s).2.log := by
  unfold callsSince resume resumeThread
  simp only []
  split_ifs <;> try simp
  all_goals (split <;> try simp)

/-- The case of `resume` with a pending reply whose trace-continue call succeeds. -/
theorem resume_present_trace_ok (k : Kernel) (s : State) (h : s.t.os.hdr ≠ emptyhdr)
    (hE : k.PtraceThupdate s.log s.t.dbp.Pid s.t.os.threadAct 0 = none) :
    resume k s = (none, ⟨{ s.t with running := true },
      s.log ++ [Call.PtraceThupdate s.t.dbp.Pid s.t.os.threadAct 0]⟩) := by
  unfold resume
  simp [h, hE]

/-- The case of `resume` with a pending reply whose trace-continue call and
reply-send fail. -/
theorem resume_present_both_fail (k : Kernel) (s : State) (h : s.t.os.hdr ≠ emptyhdr)
    (hE : k.PtraceThupdate s.log s.t.dbp.Pid s.t.os.threadAct 0 ≠ none)
    (hS : k.mach_send_reply
      (s.log ++ [Call.PtraceThupdate s.t.dbp.Pid s.t.os.threadAct 0]) s.t.os.hdr
        ≠ KERN_SUCCESS) :
    resume k s = (some GoError.ErrContinueThread, ⟨{ s.t with running := true },
      s.log ++ [Call.PtraceThupdate s.t.dbp.Pid s.t.os.threadAct 0,
        Call.mach_send_reply s.t.os.hdr]⟩) := by
  obtain ⟨e, he⟩ := Option.ne_none_iff_exists'.mp hE
  unfold resume
  simp [h, he, hS]

/-- The case of `resume` with a pending reply whose trace-continue call fails and whose
reply-send succeeds goes on to the Mach resume call. -/
theorem resume_present_reply_ok (k : Kernel) (s : State) (h : s.t.os.hdr ≠ emptyhdr)
    (hE : k.PtraceThupdate s.log s.t.dbp.Pid s.t.os.threadAct 0 ≠ none)
    (hS : k.mach_send_reply
      (s.log ++ [Call.PtraceThupdate s.t.dbp.Pid s.t.os.threadAct 0]) s.t.os.hdr
        = KERN_SUCCESS) :
    resume k s = resumeThread k ⟨{ s.t with running := true },
      s.log ++ [Call.PtraceThupdate s.t.dbp.Pid s.t.os.threadAct 0,
        Call.mach_send_reply s.t.os.hdr]⟩ := by
  obtain ⟨e, he⟩ := Option.ne_none_iff_exists'.mp hE
  unfold resume
  simp [h, he, hS]

/-- The case of `resume` without a pending reply: it is the Mach resume call. -/
theorem resume_absent (k : Kernel) (s : State) (h : s.t.os.hdr = emptyhdr) :
    resume k s = resumeThread k { s with t := { s.t with running := true } } := by
  unfold resume
  simp [h]

/-- The log after the Mach resume call. -/
theorem resumeThread_log (k : Kernel) (s : State) :
    (resumeThread k s).2.log = s.log ++ [Call.resume_thread s.t.os.threadAct] := by
  unfold resumeThread
  simp only []
  split_ifs <;> rfl

/-- The error of the Mach resume call. -/
theorem resumeThread_err (k : Kernel) (s : State) :
    (resumeThread k s).1 =
      if k.resume_thread s.log s.t.os.threadAct = KERN_SUCCESS then none
      else some GoError.ErrContinueThread := by
  unfold resumeThread
  simp only []
  split_ifs <;> simp_all

/-- With a pending reply, the first call `resume` issues is the trace-continue
call. -/
theorem resume_present_first_call (k : Kernel) (s : State) (h : s.t.os.hdr ≠ emptyhdr) :
    (callsSince s.log (resume k s).2.log).head?
      = some (Call.PtraceThupdate s.t.dbp.Pid s.t.os.threadAct 0) := by
  by_cases hE : k.PtraceThupdate s.log s.t.dbp.Pid s.t.os.threadAct 0 = none
  · rw [resume_present_trace_ok k s h hE]
    simp [callsSince]
  · by_cases hS : k.mach_send_reply
        (s.log ++ [Call.PtraceThupdate s.t.dbp.Pid s.t.os.threadAct 0]) s.t.os.hdr = KERN_SUCCESS
    · rw [resume_present_reply_ok k s h hE hS, resumeThread_log]
      simp [callsSince]
    · rw [resume_present_both_fail k s h hE hS]
      simp [callsSince]

/-- C2: for a thread whose pending reply header is present, `resume` issues the
trace-continue call first (and once); it issues the reply-send call exactly once if
the trace-continue call failed and not at all otherwise; and when both fail it
returns `ErrContinueThread` without a Mach resume call. -/
theorem resume_present_order (k : Kernel) (s : State) (h : s.t.os.hdr ≠ emptyhdr) :
    let trace := Call.PtraceThupdate s.t.dbp.Pid s.t.os.threadAct 0
    let traceErr := k.PtraceThupdate s.log s.t.dbp.Pid s.t.os.threadAct 0
    let sendRet := k.mach_send_reply (s.log ++ [trace]) s.t.os.hdr
    let cs := callsSince s.log (resume k s).2.log
    (resume k s).2.log = s.log ++ cs ∧
    cs.head? = some trace ∧
    cs.countP isTraceContinue = 1 ∧
    cs.countP isReplySend = (if traceErr = none then 0 else 1) ∧
    (traceErr ≠ none → sendRet ≠ KERN_SUCCESS →
      (resume k s).1 = some GoError.ErrContinueThread ∧
      cs = [trace, Call.mach_send_reply s.t.os.hdr] ∧
      cs.countP isMachResume = 0) := by
  intro trace traceErr sendRet cs
  refine ⟨resume_log_eq k s, ?_⟩
  simp only [cs, trace, traceErr, sendRet]
  by_cases hE : k.PtraceThupdate s.log s.t.dbp.Pid s.t.os.threadAct 0 = none
  · rw [resume_present_trace_ok k s h hE]
    simp [callsSince, hE, isTraceContinue, isReplySend]
  · by_cases hS : k.mach_send_reply
        (s.log ++ [Call.PtraceThupdate s.t.dbp.Pid s.t.os.threadAct 0]) s.t.os.hdr = KERN_SUCCESS
    · rw [resume_present_reply_ok k s h hE hS, resumeThread_log]
      simp [callsSince, hE, hS, isTraceContinue, isReplySend]
    · rw [resume_present_both_fail k s h hE hS]
      simp [callsSince, hE, isTraceContinue, isReplySend, isMachResume]

/-- C2 (witness): a thread with a pending reply whose trace-continue call and
reply-send both fail. -/
theorem resume_present_order_witness :
    exceptionThread.os.hdr ≠ emptyhdr ∧
    (resume traceAndReplyFailKernel ⟨exceptionThread, []⟩).1
      = some GoError.ErrContinueThread ∧
    callsSince [] (resume traceAndReplyFailKernel ⟨exceptionThread, []⟩).2.log
      = [Call.PtraceThupdate 100 3 0, Call.mach_send_reply exceptionThread.os.hdr] :=
  ⟨by decide,
   ((resume_present_order traceAndReplyFailKernel ⟨exceptionThread, []⟩
      (by decide)).2.2.2.2 (by decide) (by decide)).1,
   ((resume_present_order traceAndReplyFailKernel ⟨exceptionThread, []⟩
      (by decide)).2.2.2.2 (by decide) (by decide)).2.1⟩

/-- C3 (as stated, refuted): a thread with a pending reply whose trace-continue call
succeeds: `resume` returns nil after that one call and the header is still not the
zero header. -/
theorem resume_trace_success_keeps_header :
    exceptionThread.os.hdr ≠ emptyhdr ∧
    (resume idleKernel ⟨exceptionThread, []⟩).1 = none ∧
    (resume idleKernel ⟨exceptionThread, []⟩).2.log = [Call.PtraceThupdate 100 3 0] ∧
    (resume idleKernel ⟨exceptionThread, []⟩).2.t.os.hdr ≠ emptyhdr := by
  decide

/-- C3 (amended): for a thread whose pending reply header is present, if the
trace-continue call succeeds then `resume` returns nil after that single call and
leaves the header unchanged (still present), so that a following `resume` takes the
"present" branch again and starts with the trace-continue call. -/
theorem resume_trace_success_header_unchanged (k : Kernel) (s : State)
    (h : s.t.os.hdr ≠ emptyhdr)
    (htrace : k.PtraceThupdate s.log s.t.dbp.Pid s.t.os.threadAct 0 = none) :
    (resume k s).1 = none ∧
    (resume k s).2.log = s.log ++ [Call.PtraceThupdate s.t.dbp.Pid s.t.os.threadAct 0] ∧
    (resume k s).2.t.os.hdr = s.t.os.hdr ∧
    (resume k s).2.t.os.hdr ≠ emptyhdr ∧
    (callsSince (resume k s).2.log (resume k (resume k s).2).2.log).head?
      = some (Call.PtraceThupdate s.t.dbp.Pid s.t.os.threadAct 0) := by
  have ht : (resume k s).2.t.os.hdr = s.t.os.hdr := by rw [resume_thread_eq]
  have h2 : (resume k s).2.t.os.hdr ≠ emptyhdr := by rw [ht]; exact h
  have hfirst := resume_present_first_call k (resume k s).2 h2
  simp only [resume_thread_eq] at hfirst
  refine ⟨?_, ?_, ht, h2, hfirst⟩
  · rw [resume_present_trace_ok k s h htrace]
  · rw [resume_present_trace_ok k s h htrace]

/-- C3 (witness): the thread with a pending reply under a kernel whose trace-continue
call succeeds. -/
theorem resume_trace_success_header_unchanged_witness :
    exceptionThread.os.hdr ≠ emptyhdr ∧
    (resume idleKernel ⟨exceptionThread, []⟩).2.t.os.hdr = exceptionThread.os.hdr :=
  ⟨by decide,
   (resume_trace_success_header_unchanged idleKernel ⟨exceptionThread, []⟩
      (by decide) (by decide)).2.2.1⟩

/-- C4: for a thread whose pending reply header is absent, `resume` issues exactly
one call, the Mach resume call on the thread's handle (so no trace-continue and no
reply-send call), and returns `ErrContinueThread` if and only if that call returns a
status other than `KERN_SUCCESS`, nil otherwise. -/
theorem resume_absent_protocol (k : Kernel) (s : State) (h : s.t.os.hdr = emptyhdr) :
    let kret := k.resume_thread s.log s.t.os.threadAct
    let cs := callsSince s.log (resume k s).2.log
    (resume k s).2.log = s.log ++ cs ∧
    cs = [Call.resume_thread s.t.os.threadAct] ∧
    cs.countP isMachResume = 1 ∧
    cs.countP isTraceContinue = 0 ∧
    cs.countP isReplySend = 0 ∧
    ((resume k s).1 = some GoError.ErrContinueThread ↔ kret ≠ KERN_SUCCESS) ∧
    ((resume k s).1 = none ↔ kret = KERN_SUCCESS) := by
  intro kret cs
  refine ⟨resume_log_eq k s, ?_⟩
  have hcs : cs = [Call.resume_thread s.t.os.threadAct] := by
    simp only [cs]
    rw [resume_absent k s h, resumeThread_log]
    simp [callsSince]
  refine ⟨hcs, ?_, ?_, ?_, ?_, ?_⟩
  · rw [hcs]; rfl
  · rw [hcs]; rfl
  · rw [hcs]; rfl
  · rw [resume_absent k s h, resumeThread_err]
    simp only [kret]
    split_ifs with hk <;> simp [hk]
  · rw [resume_absent k s h, resumeThread_err]
    simp only [kret]
    split_ifs with hk <;> simp [hk]

/-- C4 (witness): the halted thread without a pending reply, under a kernel whose
Mach resume call fails. -/
theorem resume_absent_protocol_witness :
    haltedThread.os.hdr = emptyhdr ∧
    callsSince [] (resume resumeFailsKernel ⟨haltedThread, []⟩).2.log
      = [Call.resume_thread 3] ∧
    ((resume resumeFailsKernel ⟨haltedThread, []⟩).1 = some GoError.ErrContinueThread ↔
      resumeFailsKernel.resume_thread [] 3 ≠ KERN_SUCCESS) :=
  ⟨by decide,
   (resume_absent_protocol resumeFailsKernel ⟨haltedThread, []⟩ (by decide)).2.1,
   (resume_absent_protocol resumeFailsKernel ⟨haltedThread, []⟩ (by decide)).2.2.2.2.2.1⟩

/-- C10: for a thread whose pending reply header is present, when the trace-continue
call fails and the reply-send succeeds, `resume` goes on to issue exactly one Mach
resume call on the thread's handle, after those two calls, and returns
`ErrContinueThread` if and only if that call returns a status other than
`KERN_SUCCESS` (nil otherwise). -/
theorem resume_reply_ok_then_mach_resume (k : Kernel) (s : State)
    (h : s.t.os.hdr ≠ emptyhdr)
    (htrace : k.PtraceThupdate s.log s.t.dbp.Pid s.t.os.threadAct 0 ≠ none)
    (hsend : k.mach_send_reply
      (s.log ++ [Call.PtraceThupdate s.t.dbp.Pid s.t.os.threadAct 0]) s.t.os.hdr
        = KERN_SUCCESS) :
    let trace := Call.PtraceThupdate s.t.dbp.Pid s.t.os.threadAct 0
    let send := Call.mach_send_reply s.t.os.hdr
    let kret := k.resume_thread (s.log ++ [trace, send]) s.t.os.threadAct
    let cs := callsSince s.log (resume k s).2.log
    (resume k s).2.log = s.log ++ cs ∧
    cs = [trace, send, Call.resume_thread s.t.os.threadAct] ∧
    cs.countP isMachResume = 1 ∧
    ((resume k s).1 = some GoError.ErrContinueThread ↔ kret ≠ KERN_SUCCESS) ∧
    ((resume k s).1 = none ↔ kret = KERN_SUCCESS) := by
  intro trace send kret cs
  refine ⟨resume_log_eq k s, ?_⟩
  have hcs : cs = [trace, send, Call.resume_thread s.t.os.threadAct] := by
    simp only [cs, trace, send]
    rw [resume_present_reply_ok k s h htrace hsend, resumeThread_log]
    simp [callsSince]
  refine ⟨hcs, ?_, ?_, ?_⟩
  · rw [hcs]; rfl
  · rw [resume_present_reply_ok k s h htrace hsend, resumeThread_err]
    simp only [kret, trace, send]
    split_ifs with hk <;> simp [hk]
  · rw [resume_present_reply_ok k s h htrace hsend, resumeThread_err]
    simp only [kret, trace, send]
    split_ifs with hk <;> simp [hk]

/-- C10 (witness): the thread with a pending reply under a kernel whose
trace-continue call fails, whose reply-send succeeds and whose Mach resume call
fails: `resume` returns `ErrContinueThread` although the reply-send succeeded. -/
theorem resume_reply_ok_then_mach_resume_witness :
    exceptionThread.os.hdr ≠ emptyhdr ∧
    replyOkResumeFailsKernel.PtraceThupdate [] 100 3 0 ≠ none ∧
    replyOkResumeFailsKernel.mach_send_reply [Call.PtraceThupdate 100 3 0]
      exceptionThread.os.hdr = KERN_SUCCESS ∧
    callsSince [] (resume replyOkResumeFailsKernel ⟨exceptionThread, []⟩).2.log
      = [Call.PtraceThupdate 100 3 0, Call.mach_send_reply exceptionThread.os.hdr,
          Call.resume_thread 3] ∧
    (resume replyOkResumeFailsKernel ⟨exceptionThread, []⟩).1
      = some GoError.ErrContinueThread :=
  ⟨by decide, by decide, by decide,
   (resume_reply_ok_then_mach_resume replyOkResumeFailsKernel ⟨exceptionThread, []⟩
      (by decide) (by decide) (by decide)).2.1,
   (resume_reply_ok_then_mach_resume replyOkResumeFailsKernel ⟨exceptionThread, []⟩
      (by decide) (by decide) (by decide)).2.2.2.1.mpr (by decide)⟩

/-! ## `singleStep` -/

/-- The calls `resume` issues are one of four sequences. -/
theorem resume_calls_shape (k : Kernel) (s : State) :
    let trace := Call.PtraceThupdate s.t.dbp.Pid s.t.os.threadAct 0
    let send := Call.mach_send_reply s.t.os.hdr
    let mach := Call.resume_thread s.t.os.threadAct
    (resume k s).2.log = s.log ++ [trace] ∨
    (resume k s).2.log = s.log ++ [trace, send] ∨
    (resume k s).2.log = s.log ++ [trace, send, mach] ∨
    (resume k s).2.log = s.log ++ [mach] := by
  intro trace send mach
  by_cases h : s.t.os.hdr = emptyhdr
  · right; right; right
    rw [resume_absent k s h, resumeThread_log]
  · by_cases hE : k.PtraceThupdate s.log s.t.dbp.Pid s.t.os.threadAct 0 = none
    · left
      rw [resume_present_trace_ok k s h hE]
    · by_cases hS : k.mach_send_reply
          (s.log ++ [Call.PtraceThupdate s.t.dbp.Pid s.t.os.threadAct 0]) s.t.os.hdr
            = KERN_SUCCESS
      · right; right; left
        rw [resume_present_reply_ok k s h hE hS, resumeThread_log]
        simp [trace, send, mach]
      · right; left
        rw [resume_present_both_fail k s h hE hS]

/-- C5: the steps `singleStep` performs are a prefix of set trap flag, `resume`,
`trapWait`, clear trap flag, cut right after the first step that fails: the trap
flag is set first, the clear-trap-flag call is issued only after `trapWait` returned
without error, the error of `resume` or `trapWait` is returned unchanged, and
`singleStep` returns nil if and only if all four steps succeed. -/
theorem singleStep_sequence (k : Kernel) (s : State) :
    let setRet := k.set_single_step_flag s.log s.t.os.threadAct
    let s1 : State := ⟨s.t, s.log ++ [Call.set_single_step_flag s.t.os.threadAct]⟩
    let r := resume k s1
    let w := k.trapWait r.2.log r.2.t r.2.t.dbp.Pid
    let s3 : State := ⟨w.2, r.2.log ++ [Call.trapWait r.2.t.dbp.Pid]⟩
    let clearRet := k.clear_trap_flag s3.log s3.t.os.threadAct
    let s4 : State := ⟨w.2, s3.log ++ [Call.clear_trap_flag s3.t.os.threadAct]⟩
    let out := singleStep k s
    (setRet ≠ KERN_SUCCESS →
      out = (some (GoError.errorf "could not single step"), s1)) ∧
    (setRet = KERN_SUCCESS → ∀ e, r.1 = some e → out = (some e, r.2)) ∧
    (setRet = KERN_SUCCESS → r.1 = none → ∀ e, w.1 = some e → out = (some e, s3)) ∧
    (setRet = KERN_SUCCESS → r.1 = none → w.1 = none → clearRet ≠ KERN_SUCCESS →
      out = (some (GoError.errorf "could not clear CPU trap flag"), s4)) ∧
    (setRet = KERN_SUCCESS → r.1 = none → w.1 = none → clearRet = KERN_SUCCESS →
      out = (none, s4)) ∧
    (out.1 = none ↔
      setRet = KERN_SUCCESS ∧ r.1 = none ∧ w.1 = none ∧ clearRet = KERN_SUCCESS) ∧
    out.2.log = s.log ++ callsSince s.log out.2.log ∧
    stepsOf (callsSince s.log out.2.log) =
      (if setRet ≠ KERN_SUCCESS then [Step.setTrapFlag]
       else if r.1 ≠ none then [Step.setTrapFlag, Step.resume]
       else if w.1 ≠ none then [Step.setTrapFlag, Step.resume, Step.trapWait]
       else [Step.setTrapFlag, Step.resume, Step.trapWait, Step.clearTrapFlag]) := by
  intro setRet s1 r w s3 clearRet s4 out
  have hout : out = singleStep k s := rfl
  by_cases hset : setRet = KERN_SUCCESS
  swap
  · have h1 : out = (some (GoError.errorf "could not single step"), s1) := by
      rw [hout]; unfold singleStep; simp only []; rw [if_pos hset]
    simp [h1, hset, s1, callsSince, stepsOf, stepOf, List.destutter, List.destutter']
  rcases hr : r with ⟨re, rs⟩
  have hshape := resume_calls_shape k s1
  simp only [] at hshape
  cases re with
  | some e =>
    have h1 : out = (some e, rs) := by
      rw [hout]; unfold singleStep; simp only []; rw [if_neg (not_not.mpr hset)]
      show (match r with | (some err, s2) => _ | (none, s2) => _) = _
      rw [hr]
    have hrs : rs = (resume k s1).2 := by show rs = r.2; rw [hr]
    rw [← hrs] at hshape
    refine ⟨fun h => absurd hset h, fun _ e' he' => ?_, fun _ h => by simp at h,
      fun _ h => by simp at h, fun _ h => by simp at h, ?_, ?_, ?_⟩
    · simp only [Prod.mk.injEq, Option.some.injEq] at he' ⊢
      rw [h1]; simp [he']
    · simp [h1]
    · rw [h1]
      rcases hshape with h | h | h | h <;> simp [h, s1, callsSince]
    · rw [h1]
      rcases hshape with h | h | h | h <;>
        simp [h, hset, s1, callsSince, stepsOf, stepOf, List.destutter, List.destutter']
  | none =>
    have hrs : rs = (resume k s1).2 := by show rs = r.2; rw [hr]
    rw [← hrs] at hshape
    rcases hw : w with ⟨we, wt⟩
    have hwe : (k.trapWait rs.log rs.t rs.t.dbp.Pid).1 = we := by
      rw [hrs]; show w.1 = we; rw [hw]
    have hwt : (k.trapWait rs.log rs.t rs.t.dbp.Pid).2 = wt := by
      rw [hrs]; show w.2 = wt; rw [hw]
    have hs3 : s3 = ⟨wt, rs.log ++ [Call.trapWait rs.t.dbp.Pid]⟩ := by
      show (⟨w.2, r.2.log ++ [Call.trapWait r.2.t.dbp.Pid]⟩ : State) = _
      rw [hw, hr]
    cases we with
    | some e =>
      have h1 : out = (some e, s3) := by
        rw [hout]; unfold singleStep; simp only []; rw [if_neg (not_not.mpr hset)]
        show (match r with | (some err, s2) => _ | (none, s2) => _) = _
        rw [hr]
        simp only [hwe, hwt, hs3]
      refine ⟨fun h => absurd hset h, fun _ e' he' => by simp at he',
        fun _ _ e' he' => ?_, fun _ _ h => by simp at h, fun _ _ h => by simp at h,
        ?_, ?_, ?_⟩
      · simp only [Option.some.injEq] at he'
        rw [h1, he']
      · simp [h1]
      · rw [h1, hs3]
        rcases hshape with h | h | h | h <;> simp [h, s1, callsSince]
      · rw [h1, hs3]
        rcases hshape with h | h | h | h <;>
          simp [h, hset, s1, callsSince, stepsOf, stepOf, List.destutter, List.destutter']
    | none =>
      have hclr : clearRet = k.clear_trap_flag (rs.log ++ [Call.trapWait rs.t.dbp.Pid])
          wt.os.threadAct := by
        show k.clear_trap_flag s3.log s3.t.os.threadAct = _
        rw [hs3]
      have hs4 : s4 = ⟨wt, rs.log ++ [Call.trapWait rs.t.dbp.Pid]
          ++ [Call.clear_trap_flag wt.os.threadAct]⟩ := by
        show (⟨w.2, s3.log ++ [Call.clear_trap_flag s3.t.os.threadAct]⟩ : State) = _
        rw [hs3, hw]
      have h1 : out = (if clearRet ≠ KERN_SUCCESS then
          (some (GoError.errorf "could not clear CPU trap flag"), s4) else (none, s4)) := by
        rw [hout]; unfold singleStep; simp only []; rw [if_neg (not_not.mpr hset)]
        show (match r with | (some err, s2) => _ | (none, s2) => _) = _
        rw [hr]
        simp only [hwe, hwt, hs4, hclr]
      refine ⟨fun h => absurd hset h, fun _ e' he' => by simp at he',
        fun _ _ e' he' => by simp at he', fun _ _ _ hc => ?_, fun _ _ _ hc => ?_,
        ?_, ?_, ?_⟩
      · rw [h1, if_pos hc]
      · rw [h1, if_neg (not_not.mpr hc)]
      · rw [h1]
        by_cases hc : clearRet = KERN_SUCCESS <;> simp [hc, hset]
      · rw [h1, hs4]
        rcases hshape with h | h | h | h <;>
          by_cases hc : clearRet = KERN_SUCCESS <;> simp [h, hc, s1, callsSince]
      · rw [h1, hs4]
        rcases hshape with h | h | h | h <;>
          by_cases hc : clearRet = KERN_SUCCESS <;>
          simp [h, hc, hset, s1, callsSince, stepsOf, stepOf, List.destutter, List.destutter']

/-- A run of `singleStep` whose `trapWait` fails: the error is returned as received
and the last call is `trapWait`, so the trap flag is not cleared. -/
theorem singleStep_wait_failure_run :
    singleStep waitFailsKernel ⟨exceptionThread, []⟩
      = (some (GoError.foreign 9),
          ⟨{ exceptionThread with running := true },
            [Call.set_single_step_flag 3, Call.PtraceThupdate 100 3 0, Call.trapWait 100]⟩) := by
  decide

/-! ## `blocked` -/

/-- C9: `blocked` returns true if and only if the program counter is retrieved, the
symbol table maps it to a function, and the function's name is `runtime.kevent`,
`runtime.mach_semaphore_wait` or `runtime.usleep`; it returns false when the
program counter cannot be retrieved or no function is found. -/
theorem blocked_iff (k : Kernel) (t : Thread) :
    (blocked k t = true ↔
      ∃ pc fn, k.PC t = Except.ok pc ∧ k.PCToFunc pc = some fn ∧
        fn.Name ∈ ["runtime.kevent", "runtime.mach_semaphore_wait", "runtime.usleep"]) ∧
    (∀ e, k.PC t = Except.error e → blocked k t = false) ∧
    (∀ pc, k.PC t = Except.ok pc → k.PCToFunc pc = none → blocked k t = false) := by
  refine ⟨?_, ?_, ?_⟩
  · unfold blocked
    cases hpc : k.PC t with
    | error e => simp
    | ok pc =>
      cases hfn : k.PCToFunc pc with
      | none => simp [hfn]
      | some fn => simp [hfn]
  · intro e he
    unfold blocked
    rw [he]
  · intro pc hpc hfn
    unfold blocked
    rw [hpc]
    simp only [hfn]

/-- A thread whose program counter resolves to `runtime.usleep` is blocked. -/
theorem blocked_usleep_run : blocked usleepKernel haltedThread = true := by
  simp [blocked, usleepKernel, idleKernel]

/-! ## `readMemory` and `writeMemory` -/

/-- C8: for every address and every thread and kernel, `readMemory(a, 0)` returns an
empty result and no error, `writeMemory(a, [])` returns `(0, nil)`, and the state,
with its log of kernel calls, is unchanged. -/
theorem memory_zero_size_noop (k : Kernel) (s : State) (addr : Nat) :
    readMemory k s addr 0 = some (([], none), s) ∧
    writeMemory k s addr [] = ((0, none), s) := by
  constructor
  · unfold readMemory
    simp
  · unfold writeMemory
    simp

/-- The log after `readMemory` with a positive size: one `read_memory` call whose
length argument is the size reduced to 32 bits. -/
theorem readMemory_log (k : Kernel) (s : State) (addr : Nat) (size : Int)
    (hsize : 0 < size) :
    (readMemory k s addr size).map (fun r => r.2.log)
      = some (s.log ++ [Call.read_memory s.t.dbp.task (addr % 2 ^ 64) (size.toNat % 2 ^ 32)]) := by
  have hne : size ≠ 0 := ne_of_gt hsize
  have hnlt : ¬ size < 0 := not_lt.mpr (le_of_lt hsize)
  unfold readMemory
  simp only [if_neg hne, if_neg hnlt]
  split_ifs <;> rfl

/-- C7 (as stated, refuted): a memory call that returns the positive status 1, which
is not `KERN_SUCCESS`, makes neither `readMemory` nor `writeMemory` return an error;
and for the size 2^32 the length argument of the kernel call is 0, not the size. -/
theorem memory_access_status_and_length_refuted :
    (positiveStatusKernel.read_memory [] 7 0 1).1 ≠ KERN_SUCCESS ∧
    readMemory positiveStatusKernel ⟨haltedThread, []⟩ 0 1
      = some (([0], none), ⟨haltedThread, [Call.read_memory 7 0 1]⟩) ∧
    positiveStatusKernel.write_memory [] 7 0 [5] 1 ≠ KERN_SUCCESS ∧
    writeMemory positiveStatusKernel ⟨haltedThread, []⟩ 0 [5]
      = ((1, none), ⟨haltedThread, [Call.write_memory 7 0 [5] 1]⟩) ∧
    (readMemory idleKernel ⟨haltedThread, []⟩ 0 (2 ^ 32)).map (fun r => r.2.log)
      = some [Call.read_memory 7 0 0] := by
  refine ⟨by decide, by decide, by decide, by decide, ?_⟩
  rw [readMemory_log idleKernel ⟨haltedThread, []⟩ 0 (2 ^ 32) (by norm_num)]
  have h32 : (2 ^ 32 : Int).toNat = 2 ^ 32 := by
    rw [show (2 ^ 32 : Int) = ((2 ^ 32 : Nat) : Int) by norm_num, Int.toNat_ofNat]
  rw [h32, Nat.mod_self]
  rfl

/-- C7 (amended): for every address, every size with `0 < size < 2^32` and every
non-empty data of fewer than `2^32` bytes, `readMemory` and `writeMemory` each issue
exactly one kernel call, whose length argument is the requested size; they return an
error exactly when that call returns a negative value; on error `readMemory` returns
no bytes and `writeMemory` reports 0 bytes written; on success `readMemory` returns a
buffer of exactly `size` bytes and `writeMemory` reports `len(data)`. -/
theorem memory_access_all_or_nothing (k : Kernel) (s : State) (addr : Nat)
    (size : Int) (data : List Byte)
    (hsize : 0 < size) (hsizeLt : size < 2 ^ 32)
    (hdata : data ≠ []) (hdataLt : data.length < 2 ^ 32) :
    let rd := k.read_memory s.log s.t.dbp.task (addr % 2 ^ 64) size.toNat
    let wr := k.write_memory s.log s.t.dbp.task (addr % 2 ^ 64) data data.length
    let sR : State :=
      ⟨s.t, s.log ++ [Call.read_memory s.t.dbp.task (addr % 2 ^ 64) size.toNat]⟩
    let sW : State :=
      ⟨s.t, s.log ++ [Call.write_memory s.t.dbp.task (addr % 2 ^ 64) data data.length]⟩
    (∃ buf err, readMemory k s addr size = some ((buf, err), sR) ∧
      (err ≠ none ↔ rd.1 < 0) ∧
      (err ≠ none → buf = []) ∧
      (err = none → (buf.length : Int) = size)) ∧
    (∃ n err, writeMemory k s addr data = ((n, err), sW) ∧
      (err ≠ none ↔ wr < 0) ∧
      (err ≠ none → n = 0) ∧
      (err = none → n = (data.length : Int))) := by
  intro rd wr sR sW
  have hne : size ≠ 0 := ne_of_gt hsize
  have hnlt : ¬ size < 0 := not_lt.mpr (le_of_lt hsize)
  have hlt : size.toNat < 2 ^ 32 := by omega
  have hmod : size.toNat % 2 ^ 32 = size.toNat := Nat.mod_eq_of_lt hlt
  have hlen : data.length ≠ 0 := by
    intro h0
    exact hdata (List.length_eq_zero.mp h0)
  have hmodW : data.length % 2 ^ 32 = data.length := Nat.mod_eq_of_lt hdataLt
  constructor
  · by_cases hr : rd.1 < 0
    · refine ⟨[], some (GoError.errorf "could not read memory"), ?_, ?_, ?_, ?_⟩
      · unfold readMemory
        simp only [if_neg hne, if_neg hnlt, hmod]
        rw [if_pos hr]
      · simp [hr]
      · intro _; rfl
      · intro h; simp at h
    · refine ⟨rd.2.take size.toNat
          ++ (List.replicate size.toNat (0 : Byte)).drop (rd.2.take size.toNat).length,
        none, ?_, ?_, ?_, ?_⟩
      · unfold readMemory
        simp only [if_neg hne, if_neg hnlt, hmod]
        rw [if_neg hr]
      · simp [hr]
      · intro h; simp at h
      · intro _
        simp only [List.length_append, List.length_drop, List.length_replicate,
          List.length_take]
        omega
  · by_cases hw : wr < 0
    · refine ⟨0, some (GoError.errorf "could not write memory"), ?_, ?_, ?_, ?_⟩
      · unfold writeMemory
        simp only [if_neg hlen, hmodW]
        rw [if_pos hw]
      · simp [hw]
      · intro _; rfl
      · intro h; simp at h
    · refine ⟨(data.length : Int), none, ?_, ?_, ?_, ?_⟩
      · unfold writeMemory
        simp only [if_neg hlen, hmodW]
        rw [if_neg hw]
      · simp [hw]
      · intro h; simp at h
      · intro _; rfl

/-- C7 (witness): a read of 2 bytes and a write of 2 bytes under the idle kernel. -/
theorem memory_access_all_or_nothing_witness :
    (0 : Int) < 2 ∧ (2 : Int) < 2 ^ 32 ∧ ([1, 2] : List Byte) ≠ [] ∧
    ([1, 2] : List Byte).length < 2 ^ 32 ∧
    (∃ n err, writeMemory idleKernel ⟨haltedThread, []⟩ 5 [1, 2]
        = ((n, err), ⟨haltedThread, [Call.write_memory 7 5 [1, 2] 2]⟩) ∧
      (err ≠ none ↔ idleKernel.write_memory [] 7 5 [1, 2] 2 < 0) ∧
      (err ≠ none → n = 0) ∧
      (err = none → n = 2)) :=
  ⟨by decide, by decide, by decide, by decide,
   (memory_access_all_or_nothing idleKernel ⟨haltedThread, []⟩ 5 2 [1, 2]
      (by decide) (by decide) (by decide) (by decide)).2⟩

/-- Replaying a log that ends with a `write_memory` call stores the first `length`
bytes of its buffer last. -/
theorem memoryAfter_append_write (init : Memory) (log : List Call)
    (task a : Nat) (data : List Byte) (length : Nat) :
    memoryAfter init (log ++ [Call.write_memory task a data length])
      = (memoryAfter init log).store task a (data.take length) := by
  induction log generalizing init with
  | nil => rfl
  | cons c rest ih =>
    cases c <;> simp only [List.cons_append, memoryAfter] <;> exact ih _

/-- Loading right after storing returns the stored bytes. -/
theorem Memory.load_store (m : Memory) (task a : Nat) (bs : List Byte) :
    (m.store task a bs).load task a bs.length = bs := by
  apply List.ext_getElem
  · simp [Memory.load]
  · intro i h1 h2
    have h3 : True ∧ a ≤ a + i ∧ a + i < a + bs.length := ⟨trivial, by omega, by omega⟩
    simp only [Memory.load, List.getElem_map, List.getElem_range, Memory.store]
    rw [if_pos h3, Nat.add_sub_cancel_left, List.getD_eq_getElem _ _ h2]

/-- The result of `writeMemory` of a non-empty buffer under a faithful kernel. -/
theorem writeMemory_faithful (init : Memory) (base : Kernel) (s : State) (addr : Nat)
    (d : List Byte) (hd : d ≠ []) :
    writeMemory (faithfulKernel init base) s addr d
      = (((d.length : Int), none),
          ⟨s.t, s.log ++ [Call.write_memory s.t.dbp.task (addr % 2 ^ 64) d
            (d.length % 2 ^ 32)]⟩) := by
  have hlen : d.length ≠ 0 := fun h0 => hd (List.length_eq_zero.mp h0)
  unfold writeMemory
  simp only [if_neg hlen, faithfulKernel]
  rw [if_neg (by decide)]

/-- The result of `readMemory` of a positive size under a faithful kernel: the first
`n % 2^32` bytes come from memory, the rest of the buffer stays zero. -/
theorem readMemory_faithful (init : Memory) (base : Kernel) (s : State) (addr n : Nat)
    (hn : 0 < n) :
    readMemory (faithfulKernel init base) s addr (n : Int)
      = some (((memoryAfter init s.log).load s.t.dbp.task (addr % 2 ^ 64) (n % 2 ^ 32)
            ++ (List.replicate n (0 : Byte)).drop (n % 2 ^ 32), none),
          ⟨s.t, s.log ++ [Call.read_memory s.t.dbp.task (addr % 2 ^ 64) (n % 2 ^ 32)]⟩) := by
  have hne : (n : Int) ≠ 0 := by omega
  have hnlt : ¬ (n : Int) < 0 := by omega
  have hlen : ((memoryAfter init s.log).load s.t.dbp.task (addr % 2 ^ 64)
      (n % 2 ^ 32)).length = n % 2 ^ 32 := by
    simp [Memory.load]
  unfold readMemory
  simp only [if_neg hne, if_neg hnlt, faithfulKernel, Int.toNat_ofNat]
  rw [if_neg (by decide), List.take_of_length_le (le_of_eq hlen), hlen]

/-- Round trip below 4 GiB: for every address and every byte sequence `d` of fewer
than `2^32` bytes, under a faithful kernel `writeMemory(a, d)` returns
`(len(d), nil)` and a following `readMemory(a, len(d))` returns `d` and no error. -/
theorem writeMemory_readMemory_roundtrip (init : Memory) (base : Kernel) (s : State)
    (addr : Nat) (d : List Byte) (hlt : d.length < 2 ^ 32) :
    (writeMemory (faithfulKernel init base) s addr d).1 = ((d.length : Int), none) ∧
    ∃ s2, readMemory (faithfulKernel init base)
        (writeMemory (faithfulKernel init base) s addr d).2 addr (d.length : Int)
      = some ((d, none), s2) := by
  by_cases hd : d = []
  · subst hd
    refine ⟨by simp [writeMemory], s, ?_⟩
    simp [writeMemory, readMemory]
  · have hpos : 0 < d.length := List.length_pos.mpr hd
    have hmod : d.length % 2 ^ 32 = d.length := Nat.mod_eq_of_lt hlt
    rw [writeMemory_faithful init base s addr d hd]
    refine ⟨rfl, ⟨s.t, s.log ++ [Call.write_memory s.t.dbp.task (addr % 2 ^ 64) d
      (d.length % 2 ^ 32)] ++ [Call.read_memory s.t.dbp.task (addr % 2 ^ 64)
      (d.length % 2 ^ 32)]⟩, ?_⟩
    rw [readMemory_faithful init base _ addr d.length hpos]
    simp only [hmod, memoryAfter_append_write, List.take_length, Memory.load_store]
    simp

/-- C6 (failing input): a buffer of 2^32 bytes of value 1 written at address 0 of a
zeroed faithful memory.  The length passed to `write_memory` is 0, `writeMemory`
still reports 2^32 bytes written, and `readMemory(0, 2^32)` passes length 0 too and
returns 2^32 zero bytes, which is not the buffer written. -/
theorem writeMemory_readMemory_four_gib :
    writeMemory (faithfulKernel (fun _ _ => 0) idleKernel) ⟨haltedThread, []⟩ 0
        (List.replicate (2 ^ 32) 1)
      = (((2 ^ 32 : Int), none),
          ⟨haltedThread, [Call.write_memory 7 0 (List.replicate (2 ^ 32) 1) 0]⟩) ∧
    readMemory (faithfulKernel (fun _ _ => 0) idleKernel)
        (writeMemory (faithfulKernel (fun _ _ => 0) idleKernel) ⟨haltedThread, []⟩ 0
          (List.replicate (2 ^ 32) 1)).2 0 (2 ^ 32)
      = some ((List.replicate (2 ^ 32) 0, none),
          ⟨haltedThread, [Call.write_memory 7 0 (List.replicate (2 ^ 32) 1) 0,
            Call.read_memory 7 0 0]⟩) ∧
    List.replicate (2 ^ 32) (0 : Byte) ≠ List.replicate (2 ^ 32) 1 := by
  have hpos : 0 < 2 ^ 32 := by norm_num
  have hd : List.replicate (2 ^ 32) (1 : Byte) ≠ [] := by
    intro h
    have hl := congrArg List.length h
    rw [List.length_replicate, List.length_nil] at hl
    omega
  have hcast : ((2 ^ 32 : Nat) : Int) = 2 ^ 32 := by norm_num
  have hw := writeMemory_faithful (fun _ _ => 0) idleKernel ⟨haltedThread, []⟩ 0
    (List.replicate (2 ^ 32) 1) hd
  rw [List.length_replicate, Nat.mod_self, hcast] at hw
  refine ⟨hw, ?_, ?_⟩
  · rw [hw]
    have hr := readMemory_faithful (fun _ _ => 0) idleKernel
      ⟨haltedThread, [Call.write_memory 7 0 (List.replicate (2 ^ 32) 1) 0]⟩ 0 (2 ^ 32) hpos
    rw [Nat.mod_self, hcast] at hr
    rw [show ((([] : List Call) ++ [Call.write_memory haltedThread.dbp.task (0 % 2 ^ 64)
        (List.replicate (2 ^ 32) 1) 0]) = [Call.write_memory 7 0 (List.replicate (2 ^ 32) 1) 0])
        from rfl]
    exact hr
  · intro h
    have h1 := (List.replicate_right_inj (Nat.pos_iff_ne_zero.mp hpos)).mp h
    exact absurd h1 (by decide)

end proc
